import Mathlib

/-!
Shallow embedding of `starter/starter/ml/data.py`.

The file models the `process_data` transform and the `slide_performance`
slice reporter, together with the fragments of pandas / numpy / sklearn
behaviour the module relies on:

* column lookup `X[name]` (KeyError when absent),
* `X.drop(names, axis=1)` (KeyError when a name is absent; returns a new
  frame, the argument frame is never mutated since `inplace` defaults to
  `False`),
* `X[names].values` (row-major matrix of the selected columns),
* `OneHotEncoder(handle_unknown="ignore", sparse_output=False)`:
  per-column vocabularies are the `np.unique`-sorted distinct values;
  unknown values at transform time produce an all-zero indicator block;
  fitting or transforming a matrix with zero rows or zero columns, or
  transforming with a column count different from the fitted one, raises
  `ValueError`,
* `LabelBinarizer`: sorted distinct classes; two classes give a single
  0/1 column (1 for the second class), three or more give one-hot rows,
  a single class gives a zero column; `.ravel()` flattens row-major,
* `np.array([]).values` raising `AttributeError` (plain ndarrays have no
  `.values`), `None.transform` raising `AttributeError`,
* `Series.unique()` returning values in first-seen order,
* opening a file with mode `"w"` truncating any previous content.
-/

/-- A cell value of a table: a number (continuous data and one-hot
indicator entries) or a string (categorical data and labels). -/
inductive Val where
  | num : Int → Val
  | str : String → Val
deriving DecidableEq

/-- Total order on cell values, modelling the sort performed by
`np.unique` when sklearn builds a category vocabulary. -/
def Val.le : Val → Val → Bool
  | .num a, .num b => decide (a ≤ b)
  | .num _, .str _ => true
  | .str _, .num _ => false
  | .str a, .str b => decide (a ≤ b)

/-- Insert a value into a list, keeping it before the first element it
is `Val.le`-below (one step of insertion sort). -/
def insertVal (v : Val) : List Val → List Val
  | [] => [v]
  | w :: ws => if Val.le v w then v :: w :: ws else w :: insertVal v ws

/-- Insertion sort by `Val.le`. -/
def sortVals : List Val → List Val
  | [] => []
  | v :: vs => insertVal v (sortVals vs)

/-- `np.unique`: the sorted distinct values of a list.  This is the
category vocabulary sklearn fits for one column. -/
def npUnique (l : List Val) : List Val := (sortVals l).dedup

/-- Helper for `pdUnique`: drop values already seen. -/
def pdUniqueAux : List Val → List Val → List Val
  | [], _ => []
  | v :: vs, seen =>
    if v ∈ seen then pdUniqueAux vs seen else v :: pdUniqueAux vs (v :: seen)

/-- `pandas.Series.unique()`: distinct values in first-seen order. -/
def pdUnique (l : List Val) : List Val := pdUniqueAux l []

/-- A pandas DataFrame, column oriented: a list of named columns.  Rows
are aligned by index; `DataFrame.WF` states that all columns have the
same length and names are distinct. -/
structure DataFrame where
  cols : List (String × List Val)
deriving DecidableEq

/-- Number of rows: the length of the first column (0 for a frame with
no columns). -/
def DataFrame.nrows (df : DataFrame) : Nat :=
  match df.cols with
  | [] => 0
  | c :: _ => c.2.length

/-- Well-formedness: every column has `nrows` entries and column names
are distinct. -/
def DataFrame.WF (df : DataFrame) : Prop :=
  (∀ c ∈ df.cols, c.2.length = df.nrows) ∧ (df.cols.map Prod.fst).Nodup

instance (df : DataFrame) : Decidable df.WF := by
  unfold DataFrame.WF
  infer_instance

/-- `X[name]` for a single column: `none` models a `KeyError`. -/
def DataFrame.getCol? (df : DataFrame) (name : String) : Option (List Val) :=
  (df.cols.find? (fun c => c.1 == name)).map Prod.snd

/-- `X[name]` with a default, used where presence was already checked. -/
def DataFrame.getColD (df : DataFrame) (name : String) : List Val :=
  (df.getCol? name).getD []

/-- `X.drop(names, axis=1)` (with the default `errors="raise"` and
`inplace=False`): a new frame without the named columns, `none` when a
name is absent (KeyError). -/
def DataFrame.dropCols? (df : DataFrame) (names : List String) : Option DataFrame :=
  if names.all (fun nm => df.cols.any (fun c => c.1 == nm)) then
    some ⟨df.cols.filter (fun c => !(names.contains c.1))⟩
  else
    none

/-- `X[names]` for a list of names: the selected columns in the given
order, `none` when a name is absent (KeyError). -/
def DataFrame.selectCols? (df : DataFrame) : List String → Option (List (List Val))
  | [] => some []
  | nm :: rest =>
    match df.getCol? nm, df.selectCols? rest with
    | some c, some cs => some (c :: cs)
    | _, _ => none

/-- The value lists of all columns, in frame order. -/
def colVals (df : DataFrame) : List (List Val) := df.cols.map Prod.snd

/-- Row `i` of a column-oriented block of values (`.values` row). -/
def rowAt (cols : List (List Val)) (i : Nat) : List Val :=
  cols.map (fun c => c.getD i (Val.num 0))

/-- `.values`: the row-major matrix of a column block with `n` rows. -/
def rowsOf (cols : List (List Val)) (n : Nat) : List (List Val) :=
  (List.range n).map (rowAt cols)

/-- `np.concatenate([A, B], axis=1)`: rows concatenated pointwise. -/
def zipRows (A B : List (List Val)) : List (List Val) :=
  List.zipWith (· ++ ·) A B

/-- Python exceptions that `process_data` / `slide_performance` can
raise. -/
inductive PyErr where
  | keyError
  | attributeError
  | valueError
deriving DecidableEq

/-- A fitted `OneHotEncoder`: the per-column category vocabularies, each
sorted as produced by `np.unique`. -/
structure OneHotEncoder where
  categories : List (List Val)
deriving DecidableEq

/-- The indicator block of one categorical value against one fitted
vocabulary.  With `handle_unknown="ignore"` a value outside the
vocabulary yields all zeros. -/
def encodeBlock (cs : List Val) (v : Val) : List Val :=
  cs.map (fun c => if c = v then Val.num 1 else Val.num 0)

/-- `encoder.transform` on one row: the concatenation of the indicator
blocks of each entry against its column vocabulary. -/
def OneHotEncoder.transformRow (e : OneHotEncoder) (row : List Val) : List Val :=
  (e.categories.zip row).flatMap (fun p => encodeBlock p.1 p.2)

/-- `OneHotEncoder.fit` on a column block: one sorted vocabulary per
column. -/
def OneHotEncoder.fit (cols : List (List Val)) : OneHotEncoder :=
  ⟨cols.map npUnique⟩

/-- A fitted `LabelBinarizer`: the sorted distinct classes. -/
structure LabelBinarizer where
  classes : List Val
deriving DecidableEq

/-- `LabelBinarizer.fit`. -/
def LabelBinarizer.fit (ys : List Val) : LabelBinarizer :=
  ⟨npUnique ys⟩

/-- One transformed label row: a single `[0]` for at most one class, a
0/1 singleton selecting the second class in the binary case, and a
one-hot row over all classes otherwise. -/
def binVec (classes : List Val) (v : Val) : List Val :=
  if classes.length ≤ 1 then [Val.num 0]
  else if classes.length = 2 then
    [if classes.getD 1 (Val.num 0) = v then Val.num 1 else Val.num 0]
  else classes.map (fun c => if c = v then Val.num 1 else Val.num 0)

/-- `lb.transform(ys).ravel()`: binarize every label and flatten. -/
def LabelBinarizer.transformAll (lb : LabelBinarizer) (ys : List Val) : List Val :=
  (ys.map (binVec lb.classes)).flatten

/-- Result quadruple of `process_data`: output matrix, label vector,
returned encoder, returned label binarizer. -/
abbrev PDResult :=
  List (List Val) × List Val × Option OneHotEncoder × Option LabelBinarizer

/-- `process_data` after the label split (`data.py` lines 66-82): select
the categorical block, drop it to form the continuous frame, then branch
on `training`.  `ySeries = none` models `y = np.array([])` (no label
column), `ySeries = some ys` models the extracted pandas Series. -/
def processRest (X : DataFrame) (cats : List String) (ySeries : Option (List Val))
    (training : Bool) (encoder : Option OneHotEncoder) (lb : Option LabelBinarizer) :
    Except PyErr PDResult :=
  match X.selectCols? cats with
  | none => .error .keyError
  | some XcatCols =>
    match X.dropCols? cats with
    | none => .error .keyError
    | some Xcont =>
      let n := X.nrows
      match training with
      | true =>
        -- encoder = OneHotEncoder(handle_unknown="ignore", sparse_output=False)
        -- X_categorical = encoder.fit_transform(X_categorical): ValueError on
        -- zero samples or zero features, before the label is touched.
        if n = 0 ∨ cats = [] then .error .valueError
        else
          let enc := OneHotEncoder.fit XcatCols
          let Xcat2 := (rowsOf XcatCols n).map enc.transformRow
          match ySeries with
          | none => .error .attributeError  -- np.array([]).values
          | some ys =>
            let lbf := LabelBinarizer.fit ys
            let y := lbf.transformAll ys
            .ok (zipRows (rowsOf (colVals Xcont) n) Xcat2, y, some enc, some lbf)
      | false =>
        match encoder with
        | none => .error .attributeError  -- None.transform
        | some e =>
          -- encoder.transform: ValueError on zero samples, zero features,
          -- or a feature-count mismatch with the fitted vocabularies.
          if n = 0 ∨ cats = [] ∨ cats.length ≠ e.categories.length then
            .error .valueError
          else
            let Xcat2 := (rowsOf XcatCols n).map e.transformRow
            -- try: y = lb.transform(y.values).ravel() except AttributeError: pass
            let y : List Val :=
              match lb, ySeries with
              | some lbf, some ys => lbf.transformAll ys
              | none, some ys => ys   -- None.transform: caught, y stays the raw Series
              | _, none => []         -- np.array([]).values: caught, y stays empty
            .ok (zipRows (rowsOf (colVals Xcont) n) Xcat2, y, some e, lb)

/-- `process_data` (`data.py` lines 18-82).  The label split of lines
60-64 happens first: `X[label]` and `X.drop([label], axis=1)` raise
KeyError when the label column is absent. -/
def process_data (X : DataFrame) (categorical_features : List String)
    (label : Option String) (training : Bool)
    (encoder : Option OneHotEncoder) (lb : Option LabelBinarizer) :
    Except PyErr PDResult :=
  match label with
  | some l =>
    match X.getCol? l, X.dropCols? [l] with
    | some ys, some X1 => processRest X1 categorical_features (some ys) training encoder lb
    | _, _ => .error .keyError
  | none => processRest X categorical_features none training encoder lb

/-- The label split of `data.py` lines 60-64, as a standalone map used
to state properties uniformly over both label modes: the extracted
Series (or `none` for `y = np.array([])`) and the remaining feature
frame; `none` overall models the KeyError of a missing label column. -/
def labelSplit (X : DataFrame) (label : Option String) :
    Option (Option (List Val) × DataFrame) :=
  match label with
  | some l =>
    match X.getCol? l, X.dropCols? [l] with
    | some ys, some X1 => some (some ys, X1)
    | _, _ => none
  | none => some (none, X)

/-- `true` exactly when an `Except` computation succeeded. -/
def isOkE {α : Type} : Except PyErr α → Bool
  | .ok _ => true
  | .error _ => false

/-- `str(value)` as Python's format interpolation renders a cell. -/
def pyStr : Val → String
  | .num q => toString q
  | .str s => s

/-- The literal report line of `slide_performance` (`data.py` line 118),
including the trailing line break written by `f.write`. -/
def mkLine (v : Val) (cat : String) (m : String × String × String) : String :=
  "Feature " ++ pyStr v ++ " of the Categorical " ++ cat ++
    ": Precision:" ++ m.1 ++ " | Recall:" ++ m.2.1 ++ " | Fbeta:" ++ m.2.2 ++ "\n"

/-- `data[data[categorical] == value]`: the rows whose entry in the
named column equals `v`, all columns filtered by the same row mask. -/
def DataFrame.filterEq (df : DataFrame) (name : String) (v : Val) : DataFrame :=
  let col := df.getColD name
  let keep := (List.range df.nrows).filter (fun i => col.getD i (Val.num 0) = v)
  ⟨df.cols.map (fun c => (c.1, keep.map (fun i => c.2.getD i (Val.num 0))))⟩

/-- Modelled from the spec: `compute_model_metrics` lives in
`starter/ml/model.py`, which is not part of the sources here; §6 of the
spec declares it an external metrics collaborator
`compute_metrics(true_labels, predicted_labels) -> (precision, recall,
f_beta)`.  `slide_performance` only interpolates the three results into
a line, so the collaborator is modelled as an abstract function whose
results are already rendered as the strings Python's `format` would
produce.  The model collaborator `predict(matrix) -> label vector` (§6)
is likewise abstract.  One loop body iteration of `slide_performance`
(`data.py` lines 113-120) for column `c` and value `v`: the metric
triple computed on the filtered slice. -/
def sliceMetrics (model : List (List Val) → List Val) (data : DataFrame)
    (encoder : Option OneHotEncoder) (lb : Option LabelBinarizer)
    (cats : List String) (metrics : List Val → List Val → String × String × String)
    (c : String) (v : Val) : String × String × String :=
  match process_data (data.filterEq c v) cats (some "salary") false encoder lb with
  | .ok (Xm, y, _, _) => metrics y (model Xm)
  | .error _ => ("", "", "")

/-- The inner loop of `slide_performance` (`data.py` lines 112-120): one
line per distinct value of column `c`, in the given order; an exception
in `process_data` propagates. -/
def slideValLines (model : List (List Val) → List Val) (data : DataFrame)
    (encoder : Option OneHotEncoder) (lb : Option LabelBinarizer)
    (cats : List String) (metrics : List Val → List Val → String × String × String)
    (c : String) : List Val → Except PyErr (List String)
  | [] => .ok []
  | v :: vs =>
    match process_data (data.filterEq c v) cats (some "salary") false encoder lb with
    | .error e => .error e
    | .ok (Xm, y, _, _) =>
      match slideValLines model data encoder lb cats metrics c vs with
      | .error e => .error e
      | .ok rest => .ok (mkLine v c (metrics y (model Xm)) :: rest)

/-- The outer loop of `slide_performance` (`data.py` lines 111-120): for
each categorical column in `todo`, one line per first-seen distinct
value of that column.  `cats` is the full `categorical_features` list
handed to every inner `process_data` call; `data[categorical]` raises
KeyError when the column is absent. -/
def slideCatLines (model : List (List Val) → List Val) (data : DataFrame)
    (encoder : Option OneHotEncoder) (lb : Option LabelBinarizer)
    (cats : List String) (metrics : List Val → List Val → String × String × String) :
    List String → Except PyErr (List String)
  | [] => .ok []
  | c :: todo =>
    match data.getCol? c with
    | none => .error .keyError
    | some col =>
      match slideValLines model data encoder lb cats metrics c (pdUnique col) with
      | .error e => .error e
      | .ok linesC =>
        match slideCatLines model data encoder lb cats metrics todo with
        | .error e => .error e
        | .ok linesRest => .ok (linesC ++ linesRest)

/-- `slide_performance` (`data.py` lines 98-121).  The report file is
opened with mode `"w"`, so whatever `prevContent` the artifact held is
truncated; on success the artifact holds exactly the lines written by
the two nested loops, in order. -/
def slide_performance (model : List (List Val) → List Val) (data : DataFrame)
    (encoder : Option OneHotEncoder) (lb : Option LabelBinarizer)
    (cats : List String) (metrics : List Val → List Val → String × String × String)
    (prevContent : String) : Except PyErr String :=
  match slideCatLines model data encoder lb cats metrics cats with
  | .error e => .error e
  | .ok lines => .ok (String.join lines)

/-- A heap of DataFrame objects: the store in which the caller's frame
and the fresh frames allocated by pandas operations live.  References
are indices. -/
abbrev Heap := List DataFrame

/-- Allocate a fresh frame, returning the extended heap and its
reference. -/
def halloc (h : Heap) (df : DataFrame) : Heap × Nat :=
  (h ++ [df], h.length)

/-- Dereference a frame. -/
def hget (h : Heap) (r : Nat) : DataFrame :=
  h.getD r ⟨[]⟩

/-- `process_data` lines 66-82 as a transformer of the DataFrame heap:
`X[categorical_features]` and `X.drop(categorical_features, axis=1)`
allocate fresh frames (`inplace=False`), the local name `X` is rebound
to them, and no existing heap cell is written.  `ySome` records whether
the label split produced a Series (the training branch needs it for the
`y.values` AttributeError). -/
def framesRest (h : Heap) (xref : Nat) (cats : List String) (ySome : Bool)
    (training : Bool) (encoder : Option OneHotEncoder) :
    Heap × Except PyErr Unit :=
  let X := hget h xref
  match X.selectCols? cats with
  | none => (h, .error .keyError)
  | some _ =>
    match X.dropCols? cats with
    | none => (h, .error .keyError)
    | some Xcont =>
      let h2 := (halloc h Xcont).1
      let n := X.nrows
      match training with
      | true =>
        (h2, if n = 0 ∨ cats = [] then .error .valueError
             else if ySome then .ok () else .error .attributeError)
      | false =>
        (h2, match encoder with
             | none => .error .attributeError
             | some e =>
               if n = 0 ∨ cats = [] ∨ cats.length ≠ e.categories.length then
                 .error .valueError
               else .ok ())

/-- `process_data` as a transformer of the DataFrame heap.  The caller
passes a reference `xref` to its frame; `X.drop([label], axis=1)`
allocates a fresh frame and rebinds the local `X`, leaving the frame at
`xref` untouched. -/
def process_data_frames (h : Heap) (xref : Nat) (cats : List String)
    (label : Option String) (training : Bool)
    (encoder : Option OneHotEncoder) : Heap × Except PyErr Unit :=
  let X0 := hget h xref
  match label with
  | some l =>
    match X0.getCol? l, X0.dropCols? [l] with
    | some _, some X1 =>
      let (h1, r1) := halloc h X1
      framesRest h1 r1 cats true training encoder
    | _, _ => (h, .error .keyError)
  | none => framesRest h xref cats false training encoder

/-! ### Basic facts about the sorting and uniqueness helpers -/

theorem insertVal_perm (v : Val) (l : List Val) :
    List.Perm (insertVal v l) (v :: l) := by
  induction l with
  | nil => exact List.Perm.refl _
  | cons w ws ih =>
    cases hvw : Val.le v w with
    | true => simp [insertVal, hvw]
    | false =>
      simp only [insertVal, hvw, Bool.false_eq_true, if_false]
      exact (ih.cons w).trans (List.Perm.swap v w ws)

theorem sortVals_perm (l : List Val) : List.Perm (sortVals l) l := by
  induction l with
  | nil => exact List.Perm.refl _
  | cons v vs ih => exact (insertVal_perm v (sortVals vs)).trans (ih.cons v)

/-- The vocabulary sklearn fits for a column has exactly one entry per
distinct value of the column. -/
theorem npUnique_length (l : List Val) : (npUnique l).length = l.dedup.length :=
  ((sortVals_perm l).dedup).length_eq

/-! ### Row extraction and concatenation -/

theorem rowAt_length (cols : List (List Val)) (i : Nat) :
    (rowAt cols i).length = cols.length := by
  simp [rowAt]

theorem rowsOf_length (cols : List (List Val)) (n : Nat) :
    (rowsOf cols n).length = n := by
  simp [rowsOf]

theorem rowsOf_getD (cols : List (List Val)) (n i : Nat) (hi : i < n) :
    (rowsOf cols n).getD i [] = rowAt cols i := by
  simp [rowsOf, List.getD_eq_getElem?_getD, List.getElem?_range, hi]

theorem rowsOf_map_getD (f : List Val → List Val) (cols : List (List Val)) (n i : Nat)
    (hi : i < n) : ((rowsOf cols n).map f).getD i [] = f (rowAt cols i) := by
  simp [rowsOf, List.getD_eq_getElem?_getD, List.getElem?_range, hi]

theorem zipRows_length (A B : List (List Val)) :
    (zipRows A B).length = min A.length B.length := by
  simp [zipRows]

theorem zipRows_getD : ∀ (A B : List (List Val)) (i : Nat), i < A.length → i < B.length →
    (zipRows A B).getD i [] = A.getD i [] ++ B.getD i [] := by
  intro A
  induction A with
  | nil => intro B i h _; simp at h
  | cons a A ih =>
    intro B i hA hB
    cases B with
    | nil => simp at hB
    | cons b B =>
      cases i with
      | zero => simp [zipRows]
      | succ j =>
        simp only [zipRows, List.zipWith_cons_cons, List.getD_cons_succ]
        exact ih B j (by simpa using hA) (by simpa using hB)

/-! ### One-hot encoding facts -/

/-- `handle_unknown="ignore"`: a value outside the fitted vocabulary
produces an all-zero indicator block. -/
theorem encodeBlock_unknown (cs : List Val) (v : Val) (h : v ∉ cs) :
    encodeBlock cs v = List.replicate cs.length (Val.num 0) := by
  induction cs with
  | nil => rfl
  | cons c cs ih =>
    have hc : ¬ c = v := fun hc => h (List.mem_cons.mpr (Or.inl hc.symm))
    have hcs : v ∉ cs := fun hm => h (List.mem_cons.mpr (Or.inr hm))
    simp [encodeBlock, hc, List.replicate_succ]
    simpa [encodeBlock] using ih hcs

/-- A transformed row has one entry per fitted category of each
column. -/
theorem zipBlocks_length : ∀ (cs : List (List Val)) (row : List Val),
    row.length = cs.length →
    ((cs.zip row).flatMap (fun p => encodeBlock p.1 p.2)).length =
      (cs.map List.length).sum := by
  intro cs
  induction cs with
  | nil => intro row h; simp
  | cons c cs ih =>
    intro row h
    cases row with
    | nil => simp at h
    | cons v vs =>
      have hlen : vs.length = cs.length := by simpa using h
      have ihv := ih vs hlen
      simp only [List.zip_cons_cons, List.flatMap_cons, List.length_append,
        List.map_cons, List.sum_cons]
      rw [ihv]
      simp [encodeBlock]

theorem transformRow_length (e : OneHotEncoder) (row : List Val)
    (h : row.length = e.categories.length) :
    (e.transformRow row).length = (e.categories.map List.length).sum :=
  zipBlocks_length e.categories row h

/-! ### Label binarization facts -/

theorem binVec_length (classes : List Val) (v : Val) (h : classes.length ≤ 2) :
    (binVec classes v).length = 1 := by
  unfold binVec
  by_cases h1 : classes.length ≤ 1
  · simp [h1]
  · have h2 : classes.length = 2 := by omega
    simp [h1, h2]

/-- With at most two fitted classes the binarized-and-raveled label
vector has one entry per input label. -/
theorem transformAll_length (lb : LabelBinarizer) (ys : List Val)
    (h : lb.classes.length ≤ 2) : (lb.transformAll ys).length = ys.length := by
  unfold LabelBinarizer.transformAll
  induction ys with
  | nil => rfl
  | cons y ys ih =>
    simp only [List.map_cons, List.flatten_cons, List.length_append,
      binVec_length lb.classes y h, List.length_cons]
    omega

/-! ### DataFrame facts -/

theorem getCol?_mem (df : DataFrame) (name : String) (ys : List Val)
    (h : df.getCol? name = some ys) : (name, ys) ∈ df.cols := by
  unfold DataFrame.getCol? at h
  cases hf : df.cols.find? (fun c => c.1 == name) with
  | none => rw [hf] at h; simp at h
  | some c =>
    rw [hf] at h
    have hmem := List.mem_of_find?_eq_some hf
    have hp := List.find?_some hf
    obtain ⟨a, b⟩ := c
    simp at h hp
    rw [← hp, ← h]
    exact hmem

theorem getCol?_length (df : DataFrame) (name : String) (ys : List Val)
    (hwf : df.WF) (h : df.getCol? name = some ys) : ys.length = df.nrows :=
  hwf.1 (name, ys) (getCol?_mem df name ys h)

theorem getCol?_ne_nil (df : DataFrame) (name : String) (ys : List Val)
    (h : df.getCol? name = some ys) : df.cols ≠ [] := by
  intro hc
  have := getCol?_mem df name ys h
  rw [hc] at this
  simp at this

theorem dropCols?_cols (df : DataFrame) (names : List String) (df2 : DataFrame)
    (h : df.dropCols? names = some df2) :
    df2.cols = df.cols.filter (fun c => !(names.contains c.1)) := by
  unfold DataFrame.dropCols? at h
  split at h
  · simp at h
    rw [← h]
    simp
  · simp at h

/-- Dropping columns never changes the row count, as long as the input
is well-formed and some column survives. -/
theorem dropCols?_nrows (df : DataFrame) (names : List String) (df2 : DataFrame)
    (hwf : df.WF) (h : df.dropCols? names = some df2) (hne : df2.cols ≠ []) :
    df2.nrows = df.nrows := by
  have hcols := dropCols?_cols df names df2 h
  cases hc : df2.cols with
  | nil => exact absurd hc hne
  | cons c rest =>
    have hcmem : c ∈ df.cols := by
      have : c ∈ df2.cols := by rw [hc]; exact List.mem_cons_self c rest
      rw [hcols] at this
      exact List.mem_of_mem_filter this
    have hlen := hwf.1 c hcmem
    simp [DataFrame.nrows, hc]
    exact hlen

theorem selectCols?_head (df : DataFrame) (nm : String) (rest : List String)
    (L : List (List Val)) (h : df.selectCols? (nm :: rest) = some L) :
    ∃ ys, df.getCol? nm = some ys := by
  unfold DataFrame.selectCols? at h
  cases hg : df.getCol? nm with
  | none =>
    rw [hg] at h
    cases df.selectCols? rest <;> simp at h
  | some ys => exact ⟨ys, rfl⟩

/-- A frame in which a nonempty selection succeeded has at least one
column. -/
theorem selectCols?_ne_nil (df : DataFrame) (names : List String)
    (L : List (List Val)) (hne : names ≠ []) (h : df.selectCols? names = some L) :
    df.cols ≠ [] := by
  obtain ⟨nm, rest, hn⟩ := List.exists_cons_of_ne_nil hne
  subst hn
  obtain ⟨ys, hy⟩ := selectCols?_head df nm rest L h
  exact getCol?_ne_nil df nm ys hy

/-! ### Normal forms of `process_data` -/

theorem labelSplit_process (X : DataFrame) (cats : List String) (label : Option String)
    (training : Bool) (encoder : Option OneHotEncoder) (lb : Option LabelBinarizer)
    (ySer : Option (List Val)) (X1 : DataFrame)
    (h : labelSplit X label = some (ySer, X1)) :
    process_data X cats label training encoder lb =
      processRest X1 cats ySer training encoder lb := by
  cases label with
  | none =>
    simp [labelSplit] at h
    rw [← h.1, ← h.2]
    rfl
  | some l =>
    simp only [labelSplit] at h
    cases hy : X.getCol? l with
    | none => rw [hy] at h; simp at h
    | some ys =>
      cases hd : X.dropCols? [l] with
      | none => rw [hy, hd] at h; simp at h
      | some X1h =>
        rw [hy, hd] at h
        simp at h
        rw [← h.1, ← h.2]
        simp [process_data, hy, hd]

/-- Success normal form of the inference branch (`training=False`) with
a supplied encoder of the right arity on a nonempty categorical block:
the matrix is continuous rows concatenated with encoder-transformed
categorical rows, the label vector is binarized when both a label
Series and a binarizer exist, the raw Series when the binarizer is
absent, and empty when no label Series exists. -/
theorem processRest_inference (X : DataFrame) (cats : List String)
    (ySer : Option (List Val)) (e : OneHotEncoder) (lb : Option LabelBinarizer)
    (XcatCols : List (List Val)) (Xcont : DataFrame)
    (hsel : X.selectCols? cats = some XcatCols)
    (hdrop : X.dropCols? cats = some Xcont)
    (hn : X.nrows ≠ 0) (hcats : cats ≠ [])
    (har : cats.length = e.categories.length) :
    processRest X cats ySer false (some e) lb =
      .ok (zipRows (rowsOf (colVals Xcont) X.nrows)
            ((rowsOf XcatCols X.nrows).map e.transformRow),
           (match lb, ySer with
            | some lbf, some ys => lbf.transformAll ys
            | none, some ys => ys
            | _, none => []),
           some e, lb) := by
  unfold processRest
  simp only [hsel, hdrop]
  rw [if_neg (by push_neg; exact ⟨hn, hcats, har⟩)]

/-- Success normal form of the training branch: a fresh encoder is
fitted on the categorical block and a fresh binarizer on the label
Series, whatever encoder/binarizer were passed in. -/
theorem processRest_training (X : DataFrame) (cats : List String) (ys : List Val)
    (e0 : Option OneHotEncoder) (lb0 : Option LabelBinarizer)
    (XcatCols : List (List Val)) (Xcont : DataFrame)
    (hsel : X.selectCols? cats = some XcatCols)
    (hdrop : X.dropCols? cats = some Xcont)
    (hn : X.nrows ≠ 0) (hcats : cats ≠ []) :
    processRest X cats (some ys) true e0 lb0 =
      .ok (zipRows (rowsOf (colVals Xcont) X.nrows)
            ((rowsOf XcatCols X.nrows).map (OneHotEncoder.fit XcatCols).transformRow),
           (LabelBinarizer.fit ys).transformAll ys,
           some (OneHotEncoder.fit XcatCols), some (LabelBinarizer.fit ys)) := by
  unfold processRest
  simp only [hsel, hdrop]
  rw [if_neg (by push_neg; exact ⟨hn, hcats⟩)]

/-- The training branch never inspects the encoder/binarizer
arguments. -/
theorem processRest_training_const (X : DataFrame) (cats : List String)
    (ySer : Option (List Val)) (e1 e2 : Option OneHotEncoder)
    (lb1 lb2 : Option LabelBinarizer) :
    processRest X cats ySer true e1 lb1 = processRest X cats ySer true e2 lb2 := by
  unfold processRest
  cases X.selectCols? cats with
  | none => rfl
  | some XcatCols =>
    cases X.dropCols? cats with
    | none => rfl
    | some Xcont => rfl

/-- A `None` encoder fails at `encoder.transform` (an uncaught
AttributeError), as soon as the earlier column operations succeed. -/
theorem processRest_no_encoder (X : DataFrame) (cats : List String)
    (ySer : Option (List Val)) (lb : Option LabelBinarizer)
    (XcatCols : List (List Val)) (Xcont : DataFrame)
    (hsel : X.selectCols? cats = some XcatCols)
    (hdrop : X.dropCols? cats = some Xcont) :
    processRest X cats ySer false none lb = .error .attributeError := by
  unfold processRest
  simp only [hsel, hdrop]

theorem sum_map_dedup (Ls : List (List Val)) :
    (Ls.map (fun col => (npUnique col).length)).sum =
      (Ls.map (fun col => col.dedup.length)).sum := by
  induction Ls with
  | nil => rfl
  | cons c cs ih => simp [npUnique_length, ih]

/-! ### Claim theorems -/

/-- C1: for every training call of `process_data` on a table whose
feature frame has the continuous columns `Xcont` and categorical
columns `XcatCols`, the call succeeds with a freshly fitted encoder,
the output matrix has one row per input row, row `i` is the continuous
features of row `i` in their original order followed by the categorical
indicator entries in encoder-state order, and each row's width is the
number of continuous columns plus the sum over categorical columns of
the number of distinct values the encoder fitted for that column. -/
theorem C1_training_output_shape (X : DataFrame) (cats : List String) (l : String)
    (e0 : Option OneHotEncoder) (lb0 : Option LabelBinarizer)
    (ys : List Val) (X1 : DataFrame) (XcatCols : List (List Val)) (Xcont : DataFrame)
    (hy : X.getCol? l = some ys) (hX1 : X.dropCols? [l] = some X1)
    (hsel : X1.selectCols? cats = some XcatCols)
    (hdrop : X1.dropCols? cats = some Xcont)
    (hn : X1.nrows ≠ 0) (hcats : cats ≠ []) :
    ∃ M y lbf,
      process_data X cats (some l) true e0 lb0 =
        .ok (M, y, some (OneHotEncoder.fit XcatCols), some lbf) ∧
      M.length = X1.nrows ∧
      (∀ i, i < X1.nrows →
        M.getD i [] =
          rowAt (colVals Xcont) i ++
            (OneHotEncoder.fit XcatCols).transformRow (rowAt XcatCols i)) ∧
      (∀ i, i < X1.nrows →
        (M.getD i []).length =
          Xcont.cols.length + (XcatCols.map (fun col => col.dedup.length)).sum) := by
  rw [labelSplit_process X cats (some l) true e0 lb0 (some ys) X1
      (by simp [labelSplit, hy, hX1]),
    processRest_training X1 cats ys e0 lb0 XcatCols Xcont hsel hdrop hn hcats]
  refine ⟨_, _, _, rfl, ?_, ?_, ?_⟩
  · simp [zipRows, rowsOf]
  · intro i hi
    rw [zipRows_getD _ _ i (by simp [rowsOf, hi]) (by simp [rowsOf, hi]),
      rowsOf_getD _ _ _ hi, rowsOf_map_getD _ _ _ _ hi]
  · intro i hi
    rw [zipRows_getD _ _ i (by simp [rowsOf, hi]) (by simp [rowsOf, hi]),
      rowsOf_getD _ _ _ hi, rowsOf_map_getD _ _ _ _ hi,
      List.length_append, rowAt_length]
    congr 1
    · simp [colVals]
    · rw [transformRow_length]
      · rw [show (OneHotEncoder.fit XcatCols).categories = XcatCols.map npUnique from rfl,
          List.map_map]
        exact sum_map_dedup XcatCols
      · simp [OneHotEncoder.fit, rowAt_length]

/-- Witness for C1 at the spec's two-row example table. -/
theorem C1_witness :
    ∃ M y lbf,
      process_data
        ⟨[("age", [Val.num 25, Val.num 40]),
          ("sex", [Val.str "M", Val.str "F"]),
          ("salary", [Val.str "<=50K", Val.str ">50K"])]⟩
        ["sex"] (some "salary") true none none =
        .ok (M, y, some (OneHotEncoder.fit [[Val.str "M", Val.str "F"]]), some lbf) ∧
      M.length = 2 := by
  obtain ⟨M, y, lbf, h1, h2, _⟩ :=
    C1_training_output_shape
      ⟨[("age", [Val.num 25, Val.num 40]),
        ("sex", [Val.str "M", Val.str "F"]),
        ("salary", [Val.str "<=50K", Val.str ">50K"])]⟩
      ["sex"] "salary" none none
      [Val.str "<=50K", Val.str ">50K"]
      ⟨[("age", [Val.num 25, Val.num 40]), ("sex", [Val.str "M", Val.str "F"])]⟩
      [[Val.str "M", Val.str "F"]]
      ⟨[("age", [Val.num 25, Val.num 40])]⟩
      rfl rfl rfl rfl (by decide) (by decide)
  exact ⟨M, y, lbf, h1, h2⟩

/-- C2 counterexample: an inference call with `label=None` on a one-row
table succeeds, but its label vector has 0 entries while the input
table has 1 row, so the label-vector part of the row-count claim fails
as stated. -/
theorem C2_rowcount_counterexample :
    process_data ⟨[("sex", [Val.str "M"])]⟩ ["sex"] none false
        (some ⟨[[Val.str "M"]]⟩) none =
      .ok ([[Val.num 1]], [], some ⟨[[Val.str "M"]]⟩, none) ∧
    ([] : List Val).length ≠ (⟨[("sex", [Val.str "M"])]⟩ : DataFrame).nrows :=
  ⟨rfl, by decide⟩

/-- C2 amended: on every valid call the output matrix row count equals
the input row count, in both modes; the label vector row count equals
the input row count when a label column is supplied and the label
transform in play is binary (at most two classes); with `label=None`
at inference the label vector is empty instead. -/
theorem C2_rowcount_amended :
    (∀ (X : DataFrame) (cats : List String) (l : String)
       (e0 : Option OneHotEncoder) (lb0 : Option LabelBinarizer)
       (ys : List Val) (X1 : DataFrame) (XcatCols : List (List Val)) (Xcont : DataFrame),
       X.WF → X.getCol? l = some ys → X.dropCols? [l] = some X1 →
       X1.selectCols? cats = some XcatCols → X1.dropCols? cats = some Xcont →
       X1.nrows ≠ 0 → cats ≠ [] → ys.dedup.length ≤ 2 →
       ∃ M y enc lbf,
         process_data X cats (some l) true e0 lb0 = .ok (M, y, enc, lbf) ∧
         M.length = X.nrows ∧ y.length = X.nrows) ∧
    (∀ (X : DataFrame) (cats : List String) (l : String) (e : OneHotEncoder)
       (lbf : LabelBinarizer) (ys : List Val) (X1 : DataFrame)
       (XcatCols : List (List Val)) (Xcont : DataFrame),
       X.WF → X.getCol? l = some ys → X.dropCols? [l] = some X1 →
       X1.selectCols? cats = some XcatCols → X1.dropCols? cats = some Xcont →
       X1.nrows ≠ 0 → cats ≠ [] → cats.length = e.categories.length →
       lbf.classes.length ≤ 2 →
       ∃ M y enc lbo,
         process_data X cats (some l) false (some e) (some lbf) = .ok (M, y, enc, lbo) ∧
         M.length = X.nrows ∧ y.length = X.nrows) ∧
    (∀ (X : DataFrame) (cats : List String) (e : OneHotEncoder)
       (lb : Option LabelBinarizer) (XcatCols : List (List Val)) (Xcont : DataFrame),
       X.selectCols? cats = some XcatCols → X.dropCols? cats = some Xcont →
       X.nrows ≠ 0 → cats ≠ [] → cats.length = e.categories.length →
       ∃ M, process_data X cats none false (some e) lb = .ok (M, [], some e, lb) ∧
         M.length = X.nrows) := by
  refine ⟨?_, ?_, ?_⟩
  · intro X cats l e0 lb0 ys X1 XcatCols Xcont hwf hy hX1 hsel hdrop hn hcats hbin
    have hnr : X1.nrows = X.nrows :=
      dropCols?_nrows X [l] X1 hwf hX1 (selectCols?_ne_nil X1 cats XcatCols hcats hsel)
    have hys : ys.length = X.nrows := getCol?_length X l ys hwf hy
    rw [labelSplit_process X cats (some l) true e0 lb0 (some ys) X1
        (by simp [labelSplit, hy, hX1]),
      processRest_training X1 cats ys e0 lb0 XcatCols Xcont hsel hdrop hn hcats]
    refine ⟨_, _, _, _, rfl, ?_, ?_⟩
    · simp [zipRows, rowsOf, hnr]
    · rw [transformAll_length _ _ (by
        simpa [LabelBinarizer.fit, npUnique_length] using hbin)]
      exact hys
  · intro X cats l e lbf ys X1 XcatCols Xcont hwf hy hX1 hsel hdrop hn hcats har hbin
    have hnr : X1.nrows = X.nrows :=
      dropCols?_nrows X [l] X1 hwf hX1 (selectCols?_ne_nil X1 cats XcatCols hcats hsel)
    have hys : ys.length = X.nrows := getCol?_length X l ys hwf hy
    rw [labelSplit_process X cats (some l) false (some e) (some lbf) (some ys) X1
        (by simp [labelSplit, hy, hX1]),
      processRest_inference X1 cats (some ys) e (some lbf) XcatCols Xcont
        hsel hdrop hn hcats har]
    refine ⟨_, _, _, _, rfl, ?_, ?_⟩
    · simp [zipRows, rowsOf, hnr]
    · rw [transformAll_length _ _ hbin]
      exact hys
  · intro X cats e lb XcatCols Xcont hsel hdrop hn hcats har
    have h := processRest_inference X cats none e lb XcatCols Xcont hsel hdrop hn hcats har
    cases lb with
    | none =>
      exact ⟨_, h, by simp [zipRows, rowsOf]⟩
    | some lbf =>
      exact ⟨_, h, by simp [zipRows, rowsOf]⟩

/-- Witness for C2: the three amended row-count statements at concrete
tables. -/
theorem C2_witness :
    (∃ M y enc lbf,
       process_data
         ⟨[("age", [Val.num 25, Val.num 40]),
           ("sex", [Val.str "M", Val.str "F"]),
           ("salary", [Val.str "<=50K", Val.str ">50K"])]⟩
         ["sex"] (some "salary") true none none = .ok (M, y, enc, lbf) ∧
       M.length = 2 ∧ y.length = 2) ∧
    (∃ M, process_data ⟨[("sex", [Val.str "M"])]⟩ ["sex"] none false
        (some ⟨[[Val.str "M"]]⟩) none =
        .ok (M, [], some ⟨[[Val.str "M"]]⟩, none) ∧ M.length = 1) := by
  constructor
  · obtain ⟨M, y, enc, lbf, h1, h2, h3⟩ :=
      C2_rowcount_amended.1
        ⟨[("age", [Val.num 25, Val.num 40]),
          ("sex", [Val.str "M", Val.str "F"]),
          ("salary", [Val.str "<=50K", Val.str ">50K"])]⟩
        ["sex"] "salary" none none
        [Val.str "<=50K", Val.str ">50K"]
        ⟨[("age", [Val.num 25, Val.num 40]), ("sex", [Val.str "M", Val.str "F"])]⟩
        [[Val.str "M", Val.str "F"]]
        ⟨[("age", [Val.num 25, Val.num 40])]⟩
        (by decide) rfl rfl rfl rfl (by decide) (by decide) (by decide)
    exact ⟨M, y, enc, lbf, h1, h2, h3⟩
  · obtain ⟨M, h1, h2⟩ :=
      C2_rowcount_amended.2.2
        ⟨[("sex", [Val.str "M"])]⟩ ["sex"] ⟨[[Val.str "M"]]⟩ none
        [[Val.str "M"]] ⟨[]⟩
        rfl rfl (by decide) (by decide) (by decide)
    exact ⟨M, h1, h2⟩

/-- C3: every valid inference call with a fitted encoder of the right
arity succeeds; each output row is the continuous features followed by
the per-column indicator blocks of the encoder state, and the indicator
block of any value absent from the fitted vocabulary of its column is
all zeros (`handle_unknown="ignore"`). -/
theorem C3_unknown_category_zero_block (X : DataFrame) (cats : List String)
    (label : Option String) (e : OneHotEncoder) (lb : Option LabelBinarizer)
    (ySer : Option (List Val)) (X1 : DataFrame)
    (XcatCols : List (List Val)) (Xcont : DataFrame)
    (hls : labelSplit X label = some (ySer, X1))
    (hsel : X1.selectCols? cats = some XcatCols)
    (hdrop : X1.dropCols? cats = some Xcont)
    (hn : X1.nrows ≠ 0) (hcats : cats ≠ [])
    (har : cats.length = e.categories.length) :
    (∃ y, process_data X cats label false (some e) lb =
       .ok (zipRows (rowsOf (colVals Xcont) X1.nrows)
              ((rowsOf XcatCols X1.nrows).map e.transformRow), y, some e, lb)) ∧
    (∀ i, i < X1.nrows →
       (zipRows (rowsOf (colVals Xcont) X1.nrows)
          ((rowsOf XcatCols X1.nrows).map e.transformRow)).getD i [] =
         rowAt (colVals Xcont) i ++
           (e.categories.zip (rowAt XcatCols i)).flatMap
             (fun p => encodeBlock p.1 p.2)) ∧
    (∀ (cs : List Val) (v : Val), v ∉ cs →
       encodeBlock cs v = List.replicate cs.length (Val.num 0)) := by
  refine ⟨?_, ?_, ?_⟩
  · exact ⟨_, (labelSplit_process X cats label false (some e) lb ySer X1 hls).trans
      (processRest_inference X1 cats ySer e lb XcatCols Xcont hsel hdrop hn hcats har)⟩
  · intro i hi
    rw [zipRows_getD _ _ i (by simp [rowsOf, hi]) (by simp [rowsOf, hi]),
      rowsOf_getD _ _ _ hi, rowsOf_map_getD _ _ _ _ hi]
    rfl
  · exact encodeBlock_unknown

/-- Witness for C3: a one-row table whose categorical value `"X"` is
unknown to the fitted vocabulary `["F", "M"]`. -/
theorem C3_witness :
    (∃ y, process_data
        ⟨[("age", [Val.num 1]), ("sex", [Val.str "X"]), ("salary", [Val.str "a"])]⟩
        ["sex"] (some "salary") false (some ⟨[[Val.str "F", Val.str "M"]]⟩) none =
      .ok (zipRows (rowsOf (colVals ⟨[("age", [Val.num 1])]⟩) 1)
             ((rowsOf [[Val.str "X"]] 1).map
               (OneHotEncoder.transformRow ⟨[[Val.str "F", Val.str "M"]]⟩)),
           y, some ⟨[[Val.str "F", Val.str "M"]]⟩, none)) ∧
    encodeBlock [Val.str "F", Val.str "M"] (Val.str "X") =
      List.replicate 2 (Val.num 0) := by
  obtain ⟨⟨y, h1⟩, _, h3⟩ :=
    C3_unknown_category_zero_block
      ⟨[("age", [Val.num 1]), ("sex", [Val.str "X"]), ("salary", [Val.str "a"])]⟩
      ["sex"] (some "salary") ⟨[[Val.str "F", Val.str "M"]]⟩ none
      (some [Val.str "a"])
      ⟨[("age", [Val.num 1]), ("sex", [Val.str "X"])]⟩
      [[Val.str "X"]] ⟨[("age", [Val.num 1])]⟩
      rfl rfl rfl (by decide) (by decide) (by decide)
  exact ⟨⟨y, h1⟩, h3 [Val.str "F", Val.str "M"] (Val.str "X") (by decide)⟩

/-- C4: an inference call with `label=None` and a fitted encoder of the
right arity succeeds, returns an empty label vector, and passes the
encoder and binarizer state through untouched. -/
theorem C4_no_label_inference (X : DataFrame) (cats : List String)
    (e : OneHotEncoder) (lb : Option LabelBinarizer)
    (XcatCols : List (List Val)) (Xcont : DataFrame)
    (hsel : X.selectCols? cats = some XcatCols)
    (hdrop : X.dropCols? cats = some Xcont)
    (hn : X.nrows ≠ 0) (hcats : cats ≠ [])
    (har : cats.length = e.categories.length) :
    ∃ M, process_data X cats none false (some e) lb = .ok (M, [], some e, lb) := by
  have h := processRest_inference X cats none e lb XcatCols Xcont hsel hdrop hn hcats har
  cases lb with
  | none => exact ⟨_, h⟩
  | some lbf => exact ⟨_, h⟩

/-- Witness for C4. -/
theorem C4_witness :
    ∃ M, process_data ⟨[("sex", [Val.str "M"])]⟩ ["sex"] none false
        (some ⟨[[Val.str "M"]]⟩) none =
      .ok (M, [], some ⟨[[Val.str "M"]]⟩, none) :=
  C4_no_label_inference ⟨[("sex", [Val.str "M"])]⟩ ["sex"] ⟨[[Val.str "M"]]⟩ none
    [[Val.str "M"]] ⟨[]⟩ rfl rfl (by decide) (by decide) (by decide)

/-- C5: the claim (and the function's own docstring, lines 37-38 of
`data.py`) promise an empty label array whenever `label=None`, but a
training call with `label=None` raises an uncaught AttributeError at
line 73: `y` is `np.array([])` and plain ndarrays have no `.values`. -/
theorem C5_training_without_label_raises :
    process_data ⟨[("sex", [Val.str "M"])]⟩ ["sex"] none true none none =
      .error .attributeError := rfl

/-- C6 counterexample: an inference call with a label column supplied
and `lb=None` (and a valid fitted encoder) does not fail: the
AttributeError is swallowed and it returns successfully with the raw
labels, contradicting the claim that a missing `lb` propagates as a
hard error. -/
theorem C6_missing_state_counterexample :
    process_data
        ⟨[("age", [Val.num 25]), ("sex", [Val.str "M"]), ("salary", [Val.str "a"])]⟩
        ["sex"] (some "salary") false (some ⟨[[Val.str "M"]]⟩) none =
      .ok ([[Val.num 25, Val.num 1]], [Val.str "a"], some ⟨[[Val.str "M"]]⟩, none) := rfl

/-- C6 amended: a missing encoder at inference does propagate as an
uncaught AttributeError (from `None.transform`, before the try block),
but a missing binarizer with a label column supplied does not fail: the
`except AttributeError` handler meant for the no-label case swallows it
and the raw labels are returned. -/
theorem C6_missing_state_amended :
    (∀ (X : DataFrame) (cats : List String) (label : Option String)
       (lb : Option LabelBinarizer) (ySer : Option (List Val)) (X1 : DataFrame)
       (XcatCols : List (List Val)) (Xcont : DataFrame),
       labelSplit X label = some (ySer, X1) →
       X1.selectCols? cats = some XcatCols →
       X1.dropCols? cats = some Xcont →
       process_data X cats label false none lb = .error .attributeError) ∧
    (∀ (X : DataFrame) (cats : List String) (l : String) (e : OneHotEncoder)
       (ys : List Val) (X1 : DataFrame) (XcatCols : List (List Val)) (Xcont : DataFrame),
       X.getCol? l = some ys → X.dropCols? [l] = some X1 →
       X1.selectCols? cats = some XcatCols → X1.dropCols? cats = some Xcont →
       X1.nrows ≠ 0 → cats ≠ [] → cats.length = e.categories.length →
       ∃ M, process_data X cats (some l) false (some e) none =
         .ok (M, ys, some e, none)) := by
  constructor
  · intro X cats label lb ySer X1 XcatCols Xcont hls hsel hdrop
    rw [labelSplit_process X cats label false none lb ySer X1 hls]
    exact processRest_no_encoder X1 cats ySer lb XcatCols Xcont hsel hdrop
  · intro X cats l e ys X1 XcatCols Xcont hy hX1 hsel hdrop hn hcats har
    exact ⟨_, (labelSplit_process X cats (some l) false (some e) none (some ys) X1
        (by simp [labelSplit, hy, hX1])).trans
      (processRest_inference X1 cats (some ys) e none XcatCols Xcont
        hsel hdrop hn hcats har)⟩

/-- Witness for C6: both amended statements at concrete inputs. -/
theorem C6_witness :
    process_data ⟨[("sex", [Val.str "M"])]⟩ ["sex"] none false none none =
      .error .attributeError ∧
    ∃ M, process_data
        ⟨[("age", [Val.num 25]), ("sex", [Val.str "M"]), ("salary", [Val.str "a"])]⟩
        ["sex"] (some "salary") false (some ⟨[[Val.str "M"]]⟩) none =
      .ok (M, [Val.str "a"], some ⟨[[Val.str "M"]]⟩, none) := by
  constructor
  · exact C6_missing_state_amended.1 ⟨[("sex", [Val.str "M"])]⟩ ["sex"] none none
      none ⟨[("sex", [Val.str "M"])]⟩ [[Val.str "M"]] ⟨[]⟩ rfl rfl rfl
  · exact C6_missing_state_amended.2
      ⟨[("age", [Val.num 25]), ("sex", [Val.str "M"]), ("salary", [Val.str "a"])]⟩
      ["sex"] "salary" ⟨[[Val.str "M"]]⟩ [Val.str "a"]
      ⟨[("age", [Val.num 25]), ("sex", [Val.str "M"])]⟩
      [[Val.str "M"]] ⟨[("age", [Val.num 25])]⟩
      rfl rfl rfl rfl (by decide) (by decide) (by decide)

/-- C7: the training branch rebinds the encoder and binarizer to
freshly fitted state before any use, so training results do not depend
on the encoder/binarizer arguments at all. -/
theorem C7_training_state_independent (X : DataFrame) (cats : List String)
    (label : Option String) (e1 e2 : Option OneHotEncoder)
    (lb1 lb2 : Option LabelBinarizer) :
    process_data X cats label true e1 lb1 = process_data X cats label true e2 lb2 := by
  cases label with
  | none => exact processRest_training_const X cats none e1 e2 lb1 lb2
  | some l =>
    cases hy : X.getCol? l with
    | none =>
      cases hd : X.dropCols? [l] with
      | none => simp [process_data, hy, hd]
      | some X1 => simp [process_data, hy, hd]
    | some ys =>
      cases hd : X.dropCols? [l] with
      | none => simp [process_data, hy, hd]
      | some X1 =>
        simp only [process_data, hy, hd]
        exact processRest_training_const X1 cats (some ys) e1 e2 lb1 lb2

/-- C10: inference with a label column supplied but `lb=None` (and a
valid fitted encoder) does not raise: the AttributeError from
`None.transform` is swallowed by the except handler, and the returned
label output is the raw extracted label Series, un-binarized. -/
theorem C10_missing_lb_raw_labels (X : DataFrame) (cats : List String) (l : String)
    (e : OneHotEncoder) (ys : List Val) (X1 : DataFrame)
    (XcatCols : List (List Val)) (Xcont : DataFrame)
    (hy : X.getCol? l = some ys) (hX1 : X.dropCols? [l] = some X1)
    (hsel : X1.selectCols? cats = some XcatCols)
    (hdrop : X1.dropCols? cats = some Xcont)
    (hn : X1.nrows ≠ 0) (hcats : cats ≠ [])
    (har : cats.length = e.categories.length) :
    process_data X cats (some l) false (some e) none =
      .ok (zipRows (rowsOf (colVals Xcont) X1.nrows)
            ((rowsOf XcatCols X1.nrows).map e.transformRow),
           ys, some e, none) := by
  rw [labelSplit_process X cats (some l) false (some e) none (some ys) X1
      (by simp [labelSplit, hy, hX1]),
    processRest_inference X1 cats (some ys) e none XcatCols Xcont hsel hdrop hn hcats har]

/-- Witness for C10. -/
theorem C10_witness :
    process_data
        ⟨[("age", [Val.num 25]), ("sex", [Val.str "M"]), ("salary", [Val.str "a"])]⟩
        ["sex"] (some "salary") false (some ⟨[[Val.str "M"]]⟩) none =
      .ok (zipRows (rowsOf (colVals ⟨[("age", [Val.num 25])]⟩) 1)
            ((rowsOf [[Val.str "M"]] 1).map
              (OneHotEncoder.transformRow ⟨[[Val.str "M"]]⟩)),
           [Val.str "a"], some ⟨[[Val.str "M"]]⟩, none) :=
  C10_missing_lb_raw_labels
    ⟨[("age", [Val.num 25]), ("sex", [Val.str "M"]), ("salary", [Val.str "a"])]⟩
    ["sex"] "salary" ⟨[[Val.str "M"]]⟩ [Val.str "a"]
    ⟨[("age", [Val.num 25]), ("sex", [Val.str "M"])]⟩
    [[Val.str "M"]] ⟨[("age", [Val.num 25])]⟩
    rfl rfl rfl rfl (by decide) (by decide) (by decide)

/-! ### Slice reporter facts -/

theorem slideValLines_ok (model : List (List Val) → List Val) (data : DataFrame)
    (encoder : Option OneHotEncoder) (lb : Option LabelBinarizer)
    (cats : List String) (metrics : List Val → List Val → String × String × String)
    (c : String) :
    ∀ (vs : List Val),
    (∀ v ∈ vs, isOkE (process_data (data.filterEq c v) cats (some "salary")
        false encoder lb) = true) →
    slideValLines model data encoder lb cats metrics c vs =
      .ok (vs.map (fun v =>
        mkLine v c (sliceMetrics model data encoder lb cats metrics c v))) := by
  intro vs
  induction vs with
  | nil => intro _; rfl
  | cons v vs ih =>
    intro hok
    have hv := hok v (List.mem_cons_self v vs)
    cases hpd : process_data (data.filterEq c v) cats (some "salary") false encoder lb with
    | error err => rw [hpd] at hv; simp [isOkE] at hv
    | ok out =>
      obtain ⟨Xm, y, e4, lb4⟩ := out
      have ihv := ih (fun w hw => hok w (List.mem_cons_of_mem v hw))
      simp [slideValLines, hpd, ihv, sliceMetrics]

theorem slideCatLines_ok (model : List (List Val) → List Val) (data : DataFrame)
    (encoder : Option OneHotEncoder) (lb : Option LabelBinarizer)
    (cats : List String) (metrics : List Val → List Val → String × String × String) :
    ∀ (todo : List String),
    (∀ c ∈ todo, (data.getCol? c).isSome = true) →
    (∀ c ∈ todo, ∀ v ∈ pdUnique (data.getColD c),
       isOkE (process_data (data.filterEq c v) cats (some "salary")
         false encoder lb) = true) →
    slideCatLines model data encoder lb cats metrics todo =
      .ok (todo.flatMap (fun c => (pdUnique (data.getColD c)).map
        (fun v => mkLine v c (sliceMetrics model data encoder lb cats metrics c v)))) := by
  intro todo
  induction todo with
  | nil => intro _ _; rfl
  | cons c todo ih =>
    intro hcols hok
    have hc := hcols c (List.mem_cons_self c todo)
    cases hg : data.getCol? c with
    | none => rw [hg] at hc; simp at hc
    | some col =>
      have hcd : data.getColD c = col := by simp [DataFrame.getColD, hg]
      have hval := slideValLines_ok model data encoder lb cats metrics c
        (pdUnique col)
        (fun v hv => hok c (List.mem_cons_self c todo) v (by rw [hcd]; exact hv))
      have ihv := ih (fun d hd => hcols d (List.mem_cons_of_mem c hd))
        (fun d hd => hok d (List.mem_cons_of_mem c hd))
      simp [slideCatLines, hg, hval, ihv, hcd]

/-- C8: on every valid invocation of the slice performance reporter the
report artifact is fully overwritten (the resulting content does not
depend on the previous artifact content), and consists of exactly one
line per (categorical column, distinct value) pair — values iterated in
first-seen unique order within each column — each line following the
literal format `Feature <value> of the Categorical <column>:
Precision:<p> | Recall:<r> | Fbeta:<f>` followed by a line break. -/
theorem C8_slice_report (model : List (List Val) → List Val) (data : DataFrame)
    (encoder : Option OneHotEncoder) (lb : Option LabelBinarizer)
    (cats : List String) (metrics : List Val → List Val → String × String × String)
    (hcols : ∀ c ∈ cats, (data.getCol? c).isSome = true)
    (hok : ∀ c ∈ cats, ∀ v ∈ pdUnique (data.getColD c),
       isOkE (process_data (data.filterEq c v) cats (some "salary")
         false encoder lb) = true) :
    (∀ prevContent, slide_performance model data encoder lb cats metrics prevContent =
       .ok (String.join (cats.flatMap (fun c => (pdUnique (data.getColD c)).map
         (fun v => mkLine v c (sliceMetrics model data encoder lb cats metrics c v)))))) ∧
    (cats.flatMap (fun c => (pdUnique (data.getColD c)).map
       (fun v => mkLine v c (sliceMetrics model data encoder lb cats metrics c v)))).length =
      (cats.map (fun c => (pdUnique (data.getColD c)).length)).sum := by
  have hmain := slideCatLines_ok model data encoder lb cats metrics cats hcols hok
  constructor
  · intro prev
    simp [slide_performance, hmain]
  · simp [List.length_flatMap, Function.comp_def, List.length_map]

/-- Witness for C8 at a two-row table with one categorical column of
two distinct values, a previously nonempty artifact, and abstract
model/metrics collaborators. -/
theorem C8_witness :
    ∃ s, slide_performance (fun m => m.map (fun _ => Val.num 0))
      ⟨[("age", [Val.num 25, Val.num 40]),
        ("sex", [Val.str "M", Val.str "F"]),
        ("salary", [Val.str "a", Val.str "b"])]⟩
      (some ⟨[[Val.str "F", Val.str "M"]]⟩) (some ⟨[Val.str "a", Val.str "b"]⟩)
      ["sex"] (fun _ _ => ("1.0", "0.5", "0.25")) "stale content" = .ok s := by
  obtain ⟨h1, _⟩ := C8_slice_report (fun m => m.map (fun _ => Val.num 0))
    ⟨[("age", [Val.num 25, Val.num 40]),
      ("sex", [Val.str "M", Val.str "F"]),
      ("salary", [Val.str "a", Val.str "b"])]⟩
    (some ⟨[[Val.str "F", Val.str "M"]]⟩) (some ⟨[Val.str "a", Val.str "b"]⟩)
    ["sex"] (fun _ _ => ("1.0", "0.5", "0.25"))
    (by decide) (by decide)
  exact ⟨_, h1 "stale content"⟩

/-! ### Heap facts for the frame-effect claim -/

theorem framesRest_extends (h : Heap) (xref : Nat) (cats : List String)
    (ySome training : Bool) (encoder : Option OneHotEncoder) :
    ∃ t, (framesRest h xref cats ySome training encoder).1 = h ++ t := by
  simp only [framesRest]
  cases (hget h xref).selectCols? cats with
  | none => exact ⟨[], by simp⟩
  | some XcatCols =>
    cases (hget h xref).dropCols? cats with
    | none => exact ⟨[], by simp⟩
    | some Xcont =>
      cases training with
      | true => exact ⟨[Xcont], rfl⟩
      | false => exact ⟨[Xcont], rfl⟩

theorem process_data_frames_extends (h : Heap) (xref : Nat) (cats : List String)
    (label : Option String) (training : Bool) (encoder : Option OneHotEncoder) :
    ∃ t, (process_data_frames h xref cats label training encoder).1 = h ++ t := by
  cases label with
  | none => exact framesRest_extends h xref cats false training encoder
  | some l =>
    simp only [process_data_frames]
    cases hg : (hget h xref).getCol? l with
    | none =>
      cases hd : (hget h xref).dropCols? [l] with
      | none => exact ⟨[], by simp⟩
      | some X1 => exact ⟨[], by simp⟩
    | some ys =>
      cases hd : (hget h xref).dropCols? [l] with
      | none => exact ⟨[], by simp⟩
      | some X1 =>
        obtain ⟨t, ht⟩ :=
          framesRest_extends (h ++ [X1]) h.length cats true training encoder
        exact ⟨[X1] ++ t, by simpa [List.append_assoc] using ht⟩

/-- C9: `process_data` never mutates the caller's DataFrame object:
label extraction and the categorical/continuous partition are reads or
allocate fresh frames (`drop` with the default `inplace=False`), so
after the call — whether it succeeds or raises — the frame the caller
passed in is unchanged on the heap. -/
theorem C9_caller_frame_unchanged (h : Heap) (xref : Nat) (cats : List String)
    (label : Option String) (training : Bool) (encoder : Option OneHotEncoder)
    (hx : xref < h.length) :
    hget ((process_data_frames h xref cats label training encoder).1) xref =
      hget h xref := by
  obtain ⟨t, ht⟩ := process_data_frames_extends h xref cats label training encoder
  rw [ht]
  unfold hget
  exact List.getD_append _ _ _ _ hx

/-- Witness for C9. -/
theorem C9_witness :
    hget ((process_data_frames
      [⟨[("sex", [Val.str "M"]), ("salary", [Val.str "a"])]⟩] 0
      ["sex"] (some "salary") true none).1) 0 =
    hget [⟨[("sex", [Val.str "M"]), ("salary", [Val.str "a"])]⟩] 0 :=
  C9_caller_frame_unchanged
    [⟨[("sex", [Val.str "M"]), ("salary", [Val.str "a"])]⟩] 0
    ["sex"] (some "salary") true none (by decide)
